import Mathlib

set_option maxRecDepth 100000

/-!
Shallow embedding of `brep.py` (stltools): STL format detection, binary and
text facet decoding, vector math, and the collect-all helper.

Modelling conventions:
* Python byte strings are `List Nat` (one entry per byte).
* Python floats are idealized as exact rationals `ℚ`; the square root and the
  normalized normal vector live in `ℝ`.  A facet is three `ℚ`-vertices plus an
  `ℝ`-normal.
* A Python generator is modelled as the list of items it yields, paired with a
  `Bool` that is `true` when the generator raises an exception while being
  drained (IndexError, ValueError from `float()`, or `struct.error`).
* Exceptions escaping `fromstl` are an `Except` error value.
-/

abbrev Byte := Nat
abbrev Q3 := ℚ × ℚ × ℚ
abbrev R3 := ℝ × ℝ × ℝ
abbrev Rec3 := Q3 × Q3 × Q3

/-! ## Vector math (source lines 167-208) -/

/-- Source `_add` (brep.py lines 167-174): componentwise sum. -/
def _add (a b : Q3) : Q3 :=
  (a.1 + b.1, a.2.1 + b.2.1, a.2.2 + b.2.2)

/-- Source `_sub` (brep.py lines 177-184): componentwise difference. -/
def _sub (a b : Q3) : Q3 :=
  (a.1 - b.1, a.2.1 - b.2.1, a.2.2 - b.2.2)

/-- Source `_cross` (brep.py lines 187-196): cross product. -/
def _cross (a b : Q3) : Q3 :=
  (a.2.1 * b.2.2 - a.2.2 * b.2.1,
   a.2.2 * b.1 - a.1 * b.2.2,
   a.1 * b.2.1 - a.2.1 * b.1)

/-- The radicand `a[0]**2 + a[1]**2 + a[2]**2` of source `_norm` (line 205). -/
def magSq (a : Q3) : ℚ :=
  a.1 ^ 2 + a.2.1 ^ 2 + a.2.2 ^ 2

/-- Source `_norm`'s `L = (a[0]**2 + a[1]**2 + a[2]**2)**0.5` (line 205). -/
noncomputable def magnitude (a : Q3) : ℝ :=
  Real.sqrt (magSq a)

theorem magSq_nonneg (a : Q3) : 0 ≤ magSq a := by
  unfold magSq; positivity

theorem magnitude_eq_zero_iff (a : Q3) : magnitude a = 0 ↔ magSq a = 0 := by
  unfold magnitude
  rw [Real.sqrt_eq_zero']
  constructor
  · intro h
    have h2 : (0 : ℝ) ≤ (magSq a : ℝ) := by exact_mod_cast magSq_nonneg a
    exact_mod_cast le_antisymm h h2
  · intro h
    simp [h]

instance (a : Q3) : Decidable (magnitude a = 0) :=
  decidable_of_iff (magSq a = 0) (magnitude_eq_zero_iff a).symm

/-- Source `_norm` (brep.py lines 199-208): raises `ValueError` (modelled as
`none`) when `L == 0.0`, else returns the componentwise division by `L`. -/
noncomputable def _norm (a : Q3) : Option R3 :=
  if magnitude a = 0 then none
  else some ((a.1 : ℝ) / magnitude a, (a.2.1 : ℝ) / magnitude a, (a.2.2 : ℝ) / magnitude a)

theorem _norm_eq_none_iff (a : Q3) : _norm a = none ↔ magnitude a = 0 := by
  unfold _norm
  by_cases h : magnitude a = 0
  · simp [h]
  · simp [h]

/-- Embeds a rational vector into `ℝ×ℝ×ℝ` (the un-normalized `n` kept by the
source when `_norm` raises). -/
def castR (a : Q3) : R3 :=
  ((a.1 : ℝ), (a.2.1 : ℝ), (a.2.2 : ℝ))

/-! ## Facet stream items -/

/-- Status string of a facet: `'facet {} OK'` or `'skipped degenerate facet {}.'`
(source lines 124 and 128/158 and 162), abstracted to its tag and 1-based index. -/
inductive FacetStatus where
  | ok (idx : Nat)
  | degenerate (idx : Nat)
deriving DecidableEq

/-- A facet tuple `(a, b, c, n)`: three vertices and the normal the source
stores (normalized on success, the raw cross product after a caught
`ValueError`). -/
abbrev Facet := Q3 × Q3 × Q3 × R3

/-- One generator item `(status, facet)`; `none` models Python `None`. -/
abbrev Item := FacetStatus × Option Facet

/-- The cross product `n` of the edge vectors `u = b - a`, `v = c - b`
(source lines 121-123 and 153-155). -/
def normalOf (t : Rec3) : Q3 :=
  _cross (_sub t.2.1 t.1) (_sub t.2.2 t.2.1)

/-- Shared loop body of `_readbinary` (lines 116-130) and `_readtext`
(lines 150-164): derive the normal, try `_norm`; on failure yield
`(degenerate, None)` and then `(degenerate, (a, b, c, raw cross))`; on success
yield the single item `(ok, (a, b, c, normalized))`.  `idx` is the 1-based
facet index `cnt+1`. -/
noncomputable def yieldFacet (t : Rec3) (idx : Nat) : List Item :=
  let a := t.1
  let b := t.2.1
  let c := t.2.2
  let u := _sub b a
  let v := _sub c b
  let n := _cross u v
  match _norm n with
  | none => [(FacetStatus.degenerate idx, none),
             (FacetStatus.degenerate idx, some (a, b, c, castR n))]
  | some nn => [(FacetStatus.ok idx, some (a, b, c, nn))]

/-- Items yielded by `_readbinary` from already-unpacked vertex triples,
with `cnt` the number of records already consumed (source line 115 enumerate). -/
noncomputable def readbinaryGo : List Rec3 → Nat → List Item
  | [], _ => []
  | r :: rest, cnt => yieldFacet r (cnt + 1) ++ readbinaryGo rest (cnt + 1)

/-- `_readbinary` drained from the start over already-unpacked records. -/
noncomputable def readbinary (recs : List Rec3) : List Item :=
  readbinaryGo recs 0

/-- Source `allfacets` (brep.py lines 79-97): drains the stream and appends
`facet` whenever it is truthy.  A Python 4-tuple is always truthy and `None`
is falsy, so this keeps exactly the `some` payloads. -/
def allfacets (items : List Item) : List Facet :=
  items.filterMap (fun it => it.2)

/-! ## Byte-string utilities -/

/-- Bytes of an ASCII string literal. -/
def strBytes (s : String) : List Byte :=
  s.data.map Char.toNat

/-- `begins pat l` is true when `pat` is an initial segment of `l`
(the substring test Python performs at one position). -/
def begins : List Byte → List Byte → Bool
  | [], _ => true
  | _ :: _, [] => false
  | p :: ps, c :: cs => p == c && begins ps cs

theorem begins_length_le {p l : List Byte} (h : begins p l = true) : p.length ≤ l.length := by
  induction p generalizing l with
  | nil => simp
  | cons x xs ih =>
    cases l with
    | nil => simp [begins] at h
    | cons c cs =>
      simp only [begins, Bool.and_eq_true] at h
      have := ih h.2
      simp [List.length_cons]
      omega

/-- `hasSub pat l` is true when `pat` occurs as a contiguous substring of `l`
(Python `l.find(pat) != -1`). -/
def hasSub (pat : List Byte) : List Byte → Bool
  | [] => false
  | c :: rest => begins pat (c :: rest) || hasSub pat rest

def vertexTok : List Byte := strBytes ("vertex")
def solidTok : List Byte := strBytes ("solid")
def facetTok : List Byte := strBytes ("facet")
def unknownTok : List Byte := strBytes ("unknown")

/-- The pattern `"solid "` of source line 51. -/
def solidSp : List Byte := strBytes ("solid ")

/-- Source line 49: `data.find('vertex', 120) == -1` decides the format; this
is the `!= -1` side (an occurrence of `"vertex"` starting at offset >= 120). -/
def hasVertexFrom120 (data : List Byte) : Bool :=
  hasSub vertexTok (data.drop 120)

/-- One step of Python `str.replace("solid ", "")`: left-to-right,
non-overlapping.  Fuel-indexed so the kernel can evaluate it; the fuel is the
list length, which bounds the number of steps. -/
def removeSolidF : Nat → List Byte → List Byte
  | 0, _ => []
  | _ + 1, [] => []
  | fuel + 1, c :: rest =>
    if begins solidSp (c :: rest) then removeSolidF fuel ((c :: rest).drop 6)
    else c :: removeSolidF fuel rest

/-- Source line 51: `name.replace("solid ", "")` — removes every occurrence of
the substring `"solid "`, not only a leading prefix. -/
def removeSolid (l : List Byte) : List Byte :=
  removeSolidF l.length l

/-- Membership in Python's `'\x00 \t\n\r'` strip set (source line 52). -/
def isNulWs (c : Byte) : Bool :=
  c == 0 || c == 32 || c == 9 || c == 10 || c == 13

/-- Membership in Python's default whitespace set (space, tab, LF, CR, FF, VT). -/
def isWs (c : Byte) : Bool :=
  c == 32 || c == 9 || c == 10 || c == 13 || c == 12 || c == 11

/-- Strip characters satisfying `p` from both ends (Python `str.strip`). -/
def stripBoth (p : Byte → Bool) (l : List Byte) : List Byte :=
  ((l.dropWhile p).reverse.dropWhile p).reverse

/-- Source line 52: `name.strip('\x00 \t\n\r')`. -/
def pyStripNul (l : List Byte) : List Byte :=
  stripBoth isNulWs l

/-- Python `str.strip()` with no argument (source line 63). -/
def pyStripWs (l : List Byte) : List Byte :=
  stripBoth isWs l

/-- Worker for Python `str.split()`: `cur` is the current token, reversed. -/
def pySplitGo : List Byte → List Byte → List (List Byte)
  | cur, [] => if cur = [] then [] else [cur.reverse]
  | cur, c :: rest =>
    if isWs c then
      if cur = [] then pySplitGo [] rest else cur.reverse :: pySplitGo [] rest
    else pySplitGo (c :: cur) rest

/-- Python `data.split()` (source line 63): split on runs of whitespace,
dropping empty tokens. -/
def pySplit (data : List Byte) : List (List Byte) :=
  pySplitGo [] data

/-- Python `list.index`: index of the first occurrence, `none` when absent
(where the source's `except` catches the raised `ValueError`). -/
def pyIndex (l : List (List Byte)) (x : List Byte) : Option Nat :=
  match l with
  | [] => none
  | y :: rest => if y = x then some 0 else (pyIndex rest x).map (fun i => i + 1)

theorem pyIndex_eq_none_iff (l : List (List Byte)) (x : List Byte) :
    pyIndex l x = none ↔ x ∉ l := by
  induction l with
  | nil => simp [pyIndex]
  | cons y rest ih =>
    by_cases h : y = x
    · simp [pyIndex, h]
    · simp only [pyIndex, if_neg h, Option.map_eq_none', ih, List.mem_cons]
      tauto

/-- Python `list.count` (source line 73). -/
def pyCount (l : List (List Byte)) (x : List Byte) : Nat :=
  (l.filter (fun y => y == x)).length

/-- Python `' '.join` (source line 72). -/
def joinSpace : List (List Byte) → List Byte
  | [] => []
  | [t] => t
  | t :: rest => t ++ 32 :: joinSpace rest

/-- Little-endian unsigned 32-bit decode of the first four bytes: the `"I"` of
`struct.unpack("=80sI", ...)` on line 50 (native x86 layout). -/
def u32LE (l : List Byte) : Nat :=
  l.getD 0 0 + 256 * l.getD 1 0 + 65536 * l.getD 2 0 + 16777216 * l.getD 3 0

/-- Source line 60: `[data[n:n+50] for n in range(0, facetsz, 50)]`.
`range(0, facetsz, 50)` has `(facetsz + 49) / 50` entries, and the final slice
may be shorter than 50 bytes. -/
def chunk50 (l : List Byte) : List (List Byte) :=
  (List.range ((l.length + 49) / 50)).map (fun k => (l.drop (50 * k)).take 50)

/-! ## Binary record unpacking -/

/-- IEEE-754 binary32 decode of four little-endian bytes, idealized into `ℚ`.
`none` models a non-finite value (exponent 255: infinity or NaN), which has no
exact rational counterpart. -/
def decodeF32 (b0 b1 b2 b3 : Byte) : Option ℚ :=
  let bits : Nat := b0 + 256 * b1 + 65536 * b2 + 16777216 * b3
  let s : Nat := bits / 2 ^ 31
  let e : Nat := bits / 2 ^ 23 % 256
  let m : Nat := bits % 2 ^ 23
  if e = 255 then none
  else
    let mag : ℚ :=
      if e = 0 then (m : ℚ) / 2 ^ 149
      else (((2 ^ 23 + m : Nat) : ℚ) * 2 ^ e) / 2 ^ 150
    some (if s = 1 then -mag else mag)

/-- The 4 bytes at offset `k` of a record, decoded as a float. -/
def decF (i : List Byte) (k : Nat) : Option ℚ :=
  decodeF32 (i.getD k 0) (i.getD (k + 1) 0) (i.getD (k + 2) 0) (i.getD (k + 3) 0)

/-- Source line 117: `struct.unpack("=12x9f2x", i)` — requires exactly 50
bytes (else `struct.error`), skips 12, reads nine little-endian floats, skips
2.  `none` models `struct.error` or a non-finite float. -/
def recordDecode (i : List Byte) : Option Rec3 :=
  if i.length = 50 then do
    let ax ← decF i 12
    let ay ← decF i 16
    let az ← decF i 20
    let bx ← decF i 24
    let by! ← decF i 28
    let bz ← decF i 32
    let cx ← decF i 36
    let cy ← decF i 40
    let cz ← decF i 44
    pure ((ax, ay, az), (bx, by!, bz), (cx, cy, cz))
  else none

/-- Decode each 50-byte record in turn; `none` as soon as one fails. -/
def mapDecode : List (List Byte) → Option (List Rec3)
  | [] => some []
  | i :: rest =>
    match recordDecode i, mapDecode rest with
    | some r, some rs => some (r :: rs)
    | _, _ => none

/-- Source `_readbinary` (lines 100-130) drained as a generator over the raw
50-byte items: yields the facet items in order; the `Bool` is `true` when the
generator raises (`struct.error` on a malformed record, cutting the stream
short). -/
noncomputable def readbinaryBytesGo : List (List Byte) → Nat → List Item × Bool
  | [], _ => ([], false)
  | i :: rest, cnt =>
    match recordDecode i with
    | none => ([], true)
    | some r =>
      let p := readbinaryBytesGo rest (cnt + 1)
      (yieldFacet r (cnt + 1) ++ p.1, p.2)

noncomputable def readbinaryBytes (items : List (List Byte)) : List Item × Bool :=
  readbinaryBytesGo items 0

/-! ## Text decoding -/

/-- Is `c` an ASCII decimal digit. -/
def isDigit (c : Byte) : Bool :=
  Nat.ble 48 c && Nat.ble c 57

/-- Value of a string of decimal digits. -/
def digitsVal (l : List Byte) : Nat :=
  l.foldl (fun acc c => 10 * acc + (c - 48)) 0

/-- Python `float()` on an unsigned decimal literal `digits[.digits]`;
`none` models the `ValueError` on anything else.  (Python also accepts
exponents and `inf`/`nan` spellings; the decoders under verification only ever
receive plain decimals, so those are out of scope of this model.) -/
def pyFloatPos (t : List Byte) : Option ℚ :=
  let intPart := t.takeWhile isDigit
  let rest := t.dropWhile isDigit
  match rest with
  | [] => if intPart = [] then none else some ((digitsVal intPart : Nat) : ℚ)
  | 46 :: frac =>
    if frac.all isDigit && !(intPart = [] && frac = []) then
      some (((digitsVal intPart : Nat) : ℚ) + ((digitsVal frac : Nat) : ℚ) / 10 ^ frac.length)
    else none
  | _ => none

/-- Python `float()` with an optional sign. -/
def pyFloat (t : List Byte) : Option ℚ :=
  match t with
  | 45 :: rest => (pyFloatPos rest).map (fun q => -q)
  | 43 :: rest => pyFloatPos rest
  | _ => pyFloatPos t

/-- `float(items[k])`: `none` models either the IndexError of `items[k]` or
the ValueError of `float`. -/
def tokFloat (items : List (List Byte)) (k : Nat) : Option ℚ :=
  match items[k]? with
  | none => none
  | some t => pyFloat t

/-- Source lines 150-152: the nine fixed-offset coordinate reads of one text
facet block. -/
def readVerts (items : List (List Byte)) : Option Rec3 := do
  let ax ← tokFloat items 8
  let ay ← tokFloat items 9
  let az ← tokFloat items 10
  let bx ← tokFloat items 12
  let by! ← tokFloat items 13
  let bz ← tokFloat items 14
  let cx ← tokFloat items 16
  let cy ← tokFloat items 17
  let cz ← tokFloat items 18
  pure ((ax, ay, az), (bx, by!, bz), (cx, cy, cz))

/-- Source `_readtext` (lines 133-164) drained as a generator.  The loop head
`while items[0] == "facet"` raises IndexError on an empty token list, so the
empty case is a raise (`true`), and a head other than `"facet"` is normal
termination (`false`).  Each iteration consumes the first 21 tokens
(`del items[:21]`).  Fuel-indexed by the token-list length: each iteration
removes at least one token, so fuel `>=` length never reaches the fuel-0
fallback. -/
noncomputable def readtextF : Nat → List (List Byte) → Nat → List Item × Bool
  | _, [], _ => ([], true)
  | 0, _ :: _, _ => ([], true)
  | fuel + 1, t :: rest, cnt =>
    if t = facetTok then
      match readVerts (t :: rest) with
      | none => ([], true)
      | some abc =>
        let p := readtextF fuel ((t :: rest).drop 21) (cnt + 1)
        (yieldFacet abc (cnt + 1) ++ p.1, p.2)
    else ([], false)

/-- `_readtext` drained from the start. -/
noncomputable def readtext (toks : List (List Byte)) : List Item × Bool :=
  readtextF toks.length toks 0

/-! ## `fromstl` (source lines 35-76) -/

/-- The exceptions `fromstl` can raise. -/
inductive StlError where
  /-- `ValueError("Number of facets doesn't match file size.")`, line 59. -/
  | formatMismatch
  /-- `ValueError("Not an STL file.")`, line 68. -/
  | notAnStlFile
  /-- `struct.error` escaping from `struct.unpack("=80sI", data[0:84])` on
  line 50 when the file holds fewer than 84 bytes. -/
  | structError
deriving DecidableEq

/-- The generator `fromstl` returns, still undrained (Python generators run
lazily): the raw 50-byte items for `_readbinary`, or the remaining token list
for `_readtext`. -/
inductive Reader where
  | binary (items : List (List Byte))
  | text (tokens : List (List Byte))
deriving DecidableEq

def exceptDecEq {ε α : Type} [DecidableEq ε] [DecidableEq α] :
    DecidableEq (Except ε α) := fun a b =>
  match a, b with
  | .ok x, .ok y =>
    if h : x = y then .isTrue (by rw [h]) else .isFalse (fun hh => h (Except.ok.inj hh))
  | .error x, .error y =>
    if h : x = y then .isTrue (by rw [h]) else .isFalse (fun hh => h (Except.error.inj hh))
  | .ok _, .error _ => .isFalse (fun hh => Except.noConfusion hh)
  | .error _, .ok _ => .isFalse (fun hh => Except.noConfusion hh)

instance {ε α : Type} [DecidableEq ε] [DecidableEq α] : DecidableEq (Except ε α) :=
  exceptDecEq

/-- Source `fromstl` (lines 35-76).  Returns `(name, nf, reader)` or the
raised exception.  Binary when `"vertex"` does not occur at offset `>= 120`;
the binary path unpacks the 84-byte header, removes `"solid "` occurrences
from the name, strips NUL/space/tab/LF/CR, defaults to `"unknown"`, and
rejects the file when the header count differs from `len(data[84:]) / 50`
(Python 2 floor division).  The text path tokenizes, locates `"solid"` and
`"facet"` (any miss raises `Not an STL file`), space-joins the tokens between
them as the name (`"unknown"` when the slice is empty by `sn == en`), counts
`"facet"` tokens, and hands the tokens from the first `"facet"` on to the
text reader. -/
def fromstl (data : List Byte) : Except StlError (List Byte × Nat × Reader) :=
  if hasVertexFrom120 data = false then
    if data.length < 84 then Except.error StlError.structError
    else
      let name0 := pyStripNul (removeSolid (data.take 80))
      let name := if name0 = [] then unknownTok else name0
      let nf1 := u32LE (data.drop 80)
      let rest := data.drop 84
      let nf2 := rest.length / 50
      if nf1 ≠ nf2 then Except.error StlError.formatMismatch
      else Except.ok (name, nf1, Reader.binary (chunk50 rest))
  else
    let items := (pySplit data).map pyStripWs
    match pyIndex items solidTok, pyIndex items facetTok with
    | some si, some en =>
      let sn := si + 1
      let name := if sn = en then unknownTok else joinSpace ((items.drop sn).take (en - sn))
      Except.ok (name, pyCount items facetTok, Reader.text (items.drop en))
    | _, _ => Except.error StlError.notAnStlFile

/-! ## Concrete inputs used by the claim theorems -/

/-- Binary file: all-zero name, declared count 1, then 51 trailing bytes
(one full zero record plus one stray byte).  51 is not a multiple of 50, yet
`51 / 50 = 1` matches the declared count. -/
def dC2 : List Byte := List.replicate 80 0 ++ [1, 0, 0, 0] ++ List.replicate 51 0

/-- Binary file declaring 2 facets over a single 50-byte record. -/
def dC2w : List Byte := List.replicate 80 0 ++ [2, 0, 0, 0] ++ List.replicate 50 0

/-- Well-formed binary file: declared count 1, one all-zero record (a
degenerate facet with every vertex at the origin). -/
def d134 : List Byte := List.replicate 80 0 ++ [1, 0, 0, 0] ++ List.replicate 50 0

/-- Text-classified input whose tokens are `facet`, a padding token, `vertex`:
`"facet"` occurs but `"solid"` does not. -/
def dC5 : List Byte := facetTok ++ [32] ++ List.replicate 115 120 ++ [32] ++ vertexTok

/-- Text-classified input with both `"solid"` and `"facet"` tokens. -/
def dC5w : List Byte :=
  solidTok ++ [32] ++ List.replicate 120 120 ++ [32] ++ facetTok ++ [32] ++ vertexTok

/-- Binary file whose 80-byte name field holds `"a solid b"` padded with NULs,
with declared count 0 and no records. -/
def dC7 : List Byte := strBytes ("a solid b") ++ List.replicate 71 0 ++ [0, 0, 0, 0]

/-- Binary file whose name field holds `"solid cube"` padded with NULs. -/
def dC7w : List Byte := strBytes ("solid cube") ++ List.replicate 70 0 ++ [0, 0, 0, 0]

/-- Text-classified input whose first `"facet"` token precedes its first
`"solid"` token. -/
def dC8 : List Byte := strBytes ("facet solid ") ++ List.replicate 110 120 ++ strBytes (" vertex")

/-- Text-classified input with name tokens `My Cube` between `solid` and
`facet`. -/
def dC8w : List Byte :=
  strBytes ("solid My Cube facet ") ++ List.replicate 104 120 ++ strBytes (" vertex")

/-! ## Branch-evaluation helpers for `fromstl` -/

theorem fromstl_binary_eval (data : List Byte) (hb : hasVertexFrom120 data = false)
    (hlen : 84 ≤ data.length) :
    fromstl data =
      (if u32LE (data.drop 80) ≠ (data.length - 84) / 50 then
        Except.error StlError.formatMismatch
      else Except.ok
        ((if pyStripNul (removeSolid (data.take 80)) = [] then unknownTok
          else pyStripNul (removeSolid (data.take 80))),
         u32LE (data.drop 80), Reader.binary (chunk50 (data.drop 84)))) := by
  unfold fromstl
  rw [hb]
  simp only [eq_self_iff_true, if_true]
  rw [if_neg (by omega : ¬ data.length < 84)]
  simp [List.length_drop]

theorem fromstl_text_some (data : List Byte) (si en : Nat)
    (hb : hasVertexFrom120 data = true)
    (hs : pyIndex ((pySplit data).map pyStripWs) solidTok = some si)
    (hf : pyIndex ((pySplit data).map pyStripWs) facetTok = some en) :
    fromstl data = Except.ok
      ((if si + 1 = en then unknownTok
        else joinSpace ((((pySplit data).map pyStripWs).drop (si + 1)).take (en - (si + 1)))),
       pyCount ((pySplit data).map pyStripWs) facetTok,
       Reader.text (((pySplit data).map pyStripWs).drop en)) := by
  unfold fromstl
  rw [hb]
  simp [hs, hf]

theorem fromstl_text_none (data : List Byte)
    (hb : hasVertexFrom120 data = true)
    (hnone : pyIndex ((pySplit data).map pyStripWs) solidTok = none ∨
             pyIndex ((pySplit data).map pyStripWs) facetTok = none) :
    fromstl data = Except.error StlError.notAnStlFile := by
  unfold fromstl
  rw [hb]
  cases hnone with
  | inl h1 => simp [h1]
  | inr h2 =>
    cases h1 : pyIndex ((pySplit data).map pyStripWs) solidTok with
    | none => simp [h1]
    | some si => simp [h1, h2]

theorem pyIndex_some_mem {l : List (List Byte)} {x : List Byte} {i : Nat}
    (h : pyIndex l x = some i) : x ∈ l := by
  by_contra hc
  rw [(pyIndex_eq_none_iff l x).mpr hc] at h
  cases h


/-! ## Stream-shape helpers -/

theorem yieldFacet_deg (t : Rec3) (idx : Nat) (h : magnitude (normalOf t) = 0) :
    yieldFacet t idx =
      [(FacetStatus.degenerate idx, none),
       (FacetStatus.degenerate idx, some (t.1, t.2.1, t.2.2, castR (normalOf t)))] := by
  have hn : _norm (normalOf t) = none := (_norm_eq_none_iff _).mpr h
  simp only [normalOf] at hn
  simp only [yieldFacet, normalOf]
  rw [hn]

theorem yieldFacet_ok (t : Rec3) (idx : Nat) (h : ¬ magnitude (normalOf t) = 0) :
    yieldFacet t idx =
      [(FacetStatus.ok idx, some (t.1, t.2.1, t.2.2,
        (((normalOf t).1 : ℝ) / magnitude (normalOf t),
         ((normalOf t).2.1 : ℝ) / magnitude (normalOf t),
         ((normalOf t).2.2 : ℝ) / magnitude (normalOf t))))] := by
  have hn : _norm (normalOf t) =
      some (((normalOf t).1 : ℝ) / magnitude (normalOf t),
        ((normalOf t).2.1 : ℝ) / magnitude (normalOf t),
        ((normalOf t).2.2 : ℝ) / magnitude (normalOf t)) := by
    unfold _norm
    rw [if_neg h]
  simp only [normalOf] at hn
  simp only [yieldFacet, normalOf]
  rw [hn]

theorem yieldFacet_length (t : Rec3) (idx : Nat) :
    (yieldFacet t idx).length = if magnitude (normalOf t) = 0 then 2 else 1 := by
  by_cases h : magnitude (normalOf t) = 0
  · rw [yieldFacet_deg t idx h, if_pos h]
    rfl
  · rw [yieldFacet_ok t idx h, if_neg h]
    rfl

/-- Number of degenerate records (zero-length derived normal) in a list. -/
def degCount (recs : List Rec3) : Nat :=
  recs.countP (fun r => decide (magnitude (normalOf r) = 0))

theorem readbinaryGo_length (recs : List Rec3) (c : Nat) :
    (readbinaryGo recs c).length = recs.length + degCount recs := by
  induction recs generalizing c with
  | nil => simp [readbinaryGo, degCount]
  | cons r rest ih =>
    simp only [readbinaryGo, List.length_append, ih (c + 1), yieldFacet_length,
      degCount, List.countP_cons, List.length_cons]
    by_cases h : magnitude (normalOf r) = 0
    · simp [h]
      omega
    · simp [h]
      omega

theorem readbinaryGo_append (l1 l2 : List Rec3) (c : Nat) :
    readbinaryGo (l1 ++ l2) c = readbinaryGo l1 c ++ readbinaryGo l2 (c + l1.length) := by
  induction l1 generalizing c with
  | nil => simp [readbinaryGo]
  | cons r rest ih =>
    have harith : c + 1 + rest.length = c + (rest.length + 1) := by omega
    simp only [List.cons_append, readbinaryGo, List.length_cons, List.append_assoc]
    rw [show rest.append l2 = rest ++ l2 from rfl, ih (c + 1), harith]

theorem readbinaryBytesGo_eq (its : List (List Byte)) (recs : List Rec3) (c : Nat)
    (h : mapDecode its = some recs) :
    readbinaryBytesGo its c = (readbinaryGo recs c, false) := by
  induction its generalizing recs c with
  | nil =>
    simp only [mapDecode, Option.some.injEq] at h
    subst h
    simp [readbinaryBytesGo, readbinaryGo]
  | cons i rest ih =>
    cases hr : recordDecode i with
    | none =>
      simp [mapDecode, hr] at h
    | some r =>
      cases hrs : mapDecode rest with
      | none => simp [mapDecode, hr, hrs] at h
      | some rs =>
        simp only [mapDecode, hr, hrs, Option.some.injEq] at h
        subst h
        simp only [readbinaryBytesGo, hr]
        rw [ih rs (c + 1) hrs]
        simp [readbinaryGo]

theorem mapDecode_length (its : List (List Byte)) (recs : List Rec3)
    (h : mapDecode its = some recs) : recs.length = its.length := by
  induction its generalizing recs with
  | nil =>
    simp only [mapDecode, Option.some.injEq] at h
    subst h
    rfl
  | cons i rest ih =>
    cases hr : recordDecode i with
    | none =>
      simp [mapDecode, hr] at h
    | some r =>
      cases hrs : mapDecode rest with
      | none => simp [mapDecode, hr, hrs] at h
      | some rs =>
        simp only [mapDecode, hr, hrs, Option.some.injEq] at h
        subst h
        simp [ih rs hrs]

theorem chunk50_length (l : List Byte) : (chunk50 l).length = (l.length + 49) / 50 := by
  simp [chunk50]

theorem getD_replicate (n k : Nat) : (List.replicate n (0 : Nat)).getD k 0 = 0 := by
  induction n generalizing k with
  | zero => simp
  | succ m ih =>
    cases k with
    | zero => simp [List.replicate]
    | succ j => simp [List.replicate, ih]

theorem decodeF32_zero : decodeF32 0 0 0 0 = some 0 := by
  norm_num [decodeF32]

/-- The all-zero 50-byte record decodes to three origin vertices. -/
theorem recordDecode_zeros :
    recordDecode (List.replicate 50 0) =
      some (((0 : ℚ), 0, 0), ((0 : ℚ), 0, 0), ((0 : ℚ), 0, 0)) := by
  simp [recordDecode, decF, getD_replicate, decodeF32_zero]

/-! ## Claim C2 -/

/-- C2 counterexample: the binary file `dC2` has 51 bytes after the 84-byte
header — not a multiple of 50 — and a declared count of 1, yet `fromstl`
accepts it (Python 2 floor division `51 / 50 = 1` matches the declared
count), contradicting the claim that every non-multiple-of-50 remainder
raises `FormatMismatch`. -/
theorem c2_counterexample :
    (¬ (50 ∣ (dC2.length - 84))) ∧
    fromstl dC2 = Except.ok (unknownTok, 1, Reader.binary [List.replicate 50 0, [0]]) := by
  constructor
  · decide
  · decide

/-- C2 (amended): for binary-classified input of at least 84 bytes, `fromstl`
fails with `FormatMismatch` if and only if the declared count differs from
`(size - 84) / 50` rounded down; divisibility by 50 is not checked (a
remainder below 50 is silently accepted when the floor matches), and the
raised error carries a fixed message with neither count. -/
theorem c2_amended (data : List Byte) (hb : hasVertexFrom120 data = false)
    (hlen : 84 ≤ data.length) :
    (fromstl data = Except.error StlError.formatMismatch ↔
      u32LE (data.drop 80) ≠ (data.length - 84) / 50) ∧
    (¬ (50 ∣ (data.length - 84)) → u32LE (data.drop 80) = (data.length - 84) / 50 →
      ∃ v, fromstl data = Except.ok v) := by
  have he := fromstl_binary_eval data hb hlen
  constructor
  · rw [he]
    by_cases hm : u32LE (data.drop 80) ≠ (data.length - 84) / 50
    · simp [hm]
    · simp [if_neg hm]
      exact not_not.mp hm
  · intro _ hm2
    rw [he, if_neg (by simp [hm2])]
    exact ⟨_, rfl⟩

/-- C2 witness: the binary file `dC2w` declares 2 facets over one actual
record, and the amended theorem applied to it yields the `FormatMismatch`
failure. -/
theorem c2_amended_witness :
    hasVertexFrom120 dC2w = false ∧ 84 ≤ dC2w.length ∧
    (fromstl dC2w = Except.error StlError.formatMismatch ↔
      u32LE (dC2w.drop 80) ≠ (dC2w.length - 84) / 50) :=
  ⟨by decide, by decide, (c2_amended dC2w (by decide) (by decide)).1⟩

/-! ## Claim C5 -/

/-- C5 counterexample: `dC5` is classified as text and its token list contains
`"facet"` but no `"solid"`; `fromstl` still raises `Not an STL file`,
contradicting the claim that the error occurs only when no `"facet"` token
exists. -/
theorem c5_counterexample :
    fromstl dC5 = Except.error StlError.notAnStlFile ∧
    facetTok ∈ (pySplit dC5).map pyStripWs := by
  constructor
  · decide
  · decide

/-- C5 (amended): for text-classified input, `fromstl` fails with
`NotAnStlFile` if and only if the token list lacks `"solid"` or lacks
`"facet"`; when both tokens are present the call returns successfully. -/
theorem c5_amended (data : List Byte) (hb : hasVertexFrom120 data = true) :
    (fromstl data = Except.error StlError.notAnStlFile ↔
      (solidTok ∉ (pySplit data).map pyStripWs ∨ facetTok ∉ (pySplit data).map pyStripWs)) ∧
    (solidTok ∈ (pySplit data).map pyStripWs → facetTok ∈ (pySplit data).map pyStripWs →
      ∃ v, fromstl data = Except.ok v) := by
  cases h1 : pyIndex ((pySplit data).map pyStripWs) solidTok with
  | none =>
    have h1' := (pyIndex_eq_none_iff _ _).mp h1
    constructor
    · simp [fromstl_text_none data hb (Or.inl h1), h1']
    · intro hsm _
      exact absurd hsm h1'
  | some si =>
    have hsm := pyIndex_some_mem h1
    cases h2 : pyIndex ((pySplit data).map pyStripWs) facetTok with
    | none =>
      have h2' := (pyIndex_eq_none_iff _ _).mp h2
      constructor
      · simp [fromstl_text_none data hb (Or.inr h2), h2']
      · intro _ hfm
        exact absurd hfm h2'
    | some en =>
      have hfm := pyIndex_some_mem h2
      have he := fromstl_text_some data si en hb h1 h2
      constructor
      · rw [he]
        constructor
        · intro h
          cases h
        · intro h
          cases h with
          | inl h => exact absurd hsm h
          | inr h => exact absurd hfm h
      · intro _ _
        exact ⟨_, he⟩

/-- C5 witness: `dC5w` holds both `"solid"` and `"facet"` tokens and the
amended theorem applied to it confirms the call succeeds. -/
theorem c5_amended_witness :
    hasVertexFrom120 dC5w = true ∧
    solidTok ∈ (pySplit dC5w).map pyStripWs ∧
    facetTok ∈ (pySplit dC5w).map pyStripWs ∧
    ∃ v, fromstl dC5w = Except.ok v :=
  ⟨by decide, by decide, by decide,
    (c5_amended dC5w (by decide)).2 (by decide) (by decide)⟩

/-! ## Claim C7 -/

/-- The claim's reading of the binary name rule: strip one leading
`"solid "` prefix if present, then trim NUL/space/tab/CR/LF, defaulting to
`"unknown"` when empty.  Stated from the spec's words for comparison with the
source behavior. -/
def claimBinaryName (hdr : List Byte) : List Byte :=
  let n0 := pyStripNul (if begins solidSp hdr then hdr.drop 6 else hdr)
  if n0 = [] then unknownTok else n0

/-- C7 counterexample: for `dC7`, whose name field holds `"a solid b"`, the
claim's leading-prefix rule yields name `"a solid b"`, but `fromstl` returns
`"a b"`: the source removes every interior occurrence of `"solid "`
(`str.replace`), not a leading prefix. -/
theorem c7_counterexample :
    fromstl dC7 = Except.ok (strBytes ("a b"), 0, Reader.binary []) ∧
    claimBinaryName (dC7.take 80) = strBytes ("a solid b") ∧
    strBytes ("a b") ≠ strBytes ("a solid b") := by
  refine ⟨by decide, by decide, by decide⟩

/-- C7 (amended): for binary-classified input accepted by `fromstl`, the name
is the 80-byte header field with every occurrence of the substring
`"solid "` removed (`str.replace`, not only a leading prefix), then trimmed of
NUL/space/tab/CR/LF, and the name is `"unknown"` exactly when that result is
empty (or is itself literally `"unknown"`). -/
theorem c7_amended (data name : List Byte) (nf : Nat) (r : Reader)
    (hb : hasVertexFrom120 data = false) (hlen : 84 ≤ data.length)
    (hok : fromstl data = Except.ok (name, nf, r)) :
    (name = (if pyStripNul (removeSolid (data.take 80)) = [] then unknownTok
             else pyStripNul (removeSolid (data.take 80)))) ∧
    (name = unknownTok ↔
      (pyStripNul (removeSolid (data.take 80)) = [] ∨
       pyStripNul (removeSolid (data.take 80)) = unknownTok)) := by
  have he := fromstl_binary_eval data hb hlen
  rw [he] at hok
  by_cases hm : u32LE (data.drop 80) ≠ (data.length - 84) / 50
  · rw [if_pos hm] at hok
    cases hok
  · rw [if_neg hm] at hok
    have hname : (if pyStripNul (removeSolid (data.take 80)) = [] then unknownTok
        else pyStripNul (removeSolid (data.take 80))) = name := by
      have := Except.ok.inj hok
      exact congrArg Prod.fst this
    constructor
    · exact hname.symm
    · rw [← hname]
      by_cases h0 : pyStripNul (removeSolid (data.take 80)) = []
      · simp [h0]
      · simp [h0]

/-- C7 witness: the header `"solid cube"` padded with NULs yields the name
`"cube"` through the amended rule. -/
theorem c7_amended_witness :
    hasVertexFrom120 dC7w = false ∧ 84 ≤ dC7w.length ∧
    fromstl dC7w = Except.ok (strBytes ("cube"), 0, Reader.binary []) ∧
    strBytes ("cube") =
      (if pyStripNul (removeSolid (dC7w.take 80)) = [] then unknownTok
       else pyStripNul (removeSolid (dC7w.take 80))) :=
  ⟨by decide, by decide, by decide,
    (c7_amended dC7w (strBytes ("cube")) 0 (Reader.binary []) (by decide) (by decide)
      (by decide)).1⟩

/-! ## Claim C8 -/

/-- C8 counterexample: in `dC8` the first `"facet"` token (index 0) precedes
the first `"solid"` token (index 1), so there are no tokens strictly between
`"solid"` and `"facet"`; the claim demands the name `"unknown"`, but
`fromstl` returns the empty name (`' '.join` of the empty slice
`items[2:0]`). -/
theorem c8_counterexample :
    pyIndex ((pySplit dC8).map pyStripWs) facetTok = some 0 ∧
    pyIndex ((pySplit dC8).map pyStripWs) solidTok = some 1 ∧
    fromstl dC8 = Except.ok ([], 1, Reader.text ((pySplit dC8).map pyStripWs)) ∧
    ([] : List Byte) ≠ unknownTok := by
  refine ⟨by decide, by decide, by decide, by decide⟩

/-- C8 (amended): for text-classified input with `"solid"` first at index
`si` and `"facet"` first at index `en`, the name is the space-join of the
token slice `items[si+1 : en]` — the tokens strictly between them when
`"solid"` comes first — with `"unknown"` exactly when `si + 1 = en`; when the
first `"facet"` precedes the first `"solid"` the slice is empty and the name
is the empty string, not `"unknown"`.  The declared count is the number of
`"facet"` tokens. -/
theorem c8_amended (data : List Byte) (si en : Nat)
    (hb : hasVertexFrom120 data = true)
    (hs : pyIndex ((pySplit data).map pyStripWs) solidTok = some si)
    (hf : pyIndex ((pySplit data).map pyStripWs) facetTok = some en) :
    (∃ r, fromstl data = Except.ok
      ((if si + 1 = en then unknownTok
        else joinSpace ((((pySplit data).map pyStripWs).drop (si + 1)).take (en - (si + 1)))),
       pyCount ((pySplit data).map pyStripWs) facetTok, r)) ∧
    (en ≤ si →
      ∃ r, fromstl data = Except.ok
        ([], pyCount ((pySplit data).map pyStripWs) facetTok, r)) := by
  have he := fromstl_text_some data si en hb hs hf
  constructor
  · exact ⟨_, he⟩
  · intro hle
    refine ⟨Reader.text (((pySplit data).map pyStripWs).drop en), ?_⟩
    rw [he, if_neg (by omega : ¬ si + 1 = en), (by omega : en - (si + 1) = 0)]
    simp [joinSpace]

/-- C8 witness: tokens `solid My Cube facet ...` yield the name `"My Cube"`
through the amended rule. -/
theorem c8_amended_witness :
    hasVertexFrom120 dC8w = true ∧
    pyIndex ((pySplit dC8w).map pyStripWs) solidTok = some 0 ∧
    pyIndex ((pySplit dC8w).map pyStripWs) facetTok = some 3 ∧
    ∃ r, fromstl dC8w = Except.ok
      ((if 0 + 1 = 3 then unknownTok
        else joinSpace ((((pySplit dC8w).map pyStripWs).drop (0 + 1)).take (3 - (0 + 1)))),
       pyCount ((pySplit dC8w).map pyStripWs) facetTok, r) :=
  ⟨by decide, by decide, by decide,
    (c8_amended dC8w 0 3 (by decide) (by decide) (by decide)).1⟩

/-! ## Claim C10 -/

theorem fromstl_short_struct (data : List Byte) (hb : hasVertexFrom120 data = false)
    (hlen : data.length < 84) :
    fromstl data = Except.error StlError.structError := by
  unfold fromstl
  rw [hb]
  simp [hlen]

/-- C10: for every input classified as binary (no `"vertex"` occurrence at or
after offset 120) shorter than 84 bytes, `fromstl` fails with the low-level
unpacking error (`struct.error`), not `FormatMismatch` or `NotAnStlFile`: the
84-byte header parse has an unstated length precondition. -/
theorem c10_short_binary (data : List Byte) (hb : hasVertexFrom120 data = false)
    (hlen : data.length < 84) :
    fromstl data = Except.error StlError.structError :=
  fromstl_short_struct data hb hlen

/-- C10 witness: the empty file is classified as binary and fails with the
unpacking error. -/
theorem c10_short_binary_witness :
    hasVertexFrom120 ([] : List Byte) = false ∧ ([] : List Byte).length < 84 ∧
    fromstl ([] : List Byte) = Except.error StlError.structError :=
  ⟨by decide, by decide, c10_short_binary ([] : List Byte) (by decide) (by decide)⟩

/-! ## Claim C6 -/

/-- C6: `_norm` fails (raises `ZeroLengthVector`, modelled as `none`) if and
only if the magnitude is exactly zero — equivalently, exactly on the zero
vector, with no epsilon tolerance — and on every vector of non-zero magnitude
it returns the componentwise division by the magnitude without raising.
(Float arithmetic is idealized as exact rational/real arithmetic.) -/
theorem c6_norm_spec (a : Q3) :
    (_norm a = none ↔ magnitude a = 0) ∧
    (magnitude a = 0 ↔ a = ((0 : ℚ), (0 : ℚ), (0 : ℚ))) ∧
    (magnitude a ≠ 0 →
      _norm a = some ((a.1 : ℝ) / magnitude a, (a.2.1 : ℝ) / magnitude a,
        (a.2.2 : ℝ) / magnitude a)) := by
  obtain ⟨x, y, z⟩ := a
  refine ⟨_norm_eq_none_iff _, ?_, ?_⟩
  · rw [magnitude_eq_zero_iff]
    unfold magSq
    constructor
    · intro h
      have hx : x = 0 := by nlinarith [sq_nonneg x, sq_nonneg y, sq_nonneg z]
      have hy : y = 0 := by nlinarith [sq_nonneg x, sq_nonneg y, sq_nonneg z]
      have hz : z = 0 := by nlinarith [sq_nonneg x, sq_nonneg y, sq_nonneg z]
      simp [hx, hy, hz]
    · intro h
      rw [show x = 0 from congrArg (fun p => p.1) h,
        show y = 0 from congrArg (fun p => p.2.1) h,
        show z = 0 from congrArg (fun p => p.2.2) h]
      norm_num
  · intro h
    unfold _norm
    rw [if_neg h]

/-- C6 witness: the vector `(3, 0, 0)` has non-zero magnitude and is
normalized by componentwise division. -/
theorem c6_norm_spec_witness :
    magnitude ((3 : ℚ), (0 : ℚ), (0 : ℚ)) ≠ 0 ∧
    _norm ((3 : ℚ), (0 : ℚ), (0 : ℚ)) =
      some (((3 : ℚ) : ℝ) / magnitude ((3 : ℚ), (0 : ℚ), (0 : ℚ)),
        ((0 : ℚ) : ℝ) / magnitude ((3 : ℚ), (0 : ℚ), (0 : ℚ)),
        ((0 : ℚ) : ℝ) / magnitude ((3 : ℚ), (0 : ℚ), (0 : ℚ))) := by
  have h : magnitude ((3 : ℚ), (0 : ℚ), (0 : ℚ)) ≠ 0 := by
    rw [Ne, magnitude_eq_zero_iff]
    norm_num [magSq]
  exact ⟨h, (c6_norm_spec ((3 : ℚ), (0 : ℚ), (0 : ℚ))).2.2 h⟩

/-! ## Claim C1 -/

/-- The collinear facet from the claim: a=(0,0,0), b=(1,0,0), c=(2,0,0). -/
def recC1 : Rec3 := (((0 : ℚ), 0, 0), ((1 : ℚ), 0, 0), ((2 : ℚ), 0, 0))

theorem recC1_deg : magnitude (normalOf recC1) = 0 := by
  rw [magnitude_eq_zero_iff]
  norm_num [normalOf, _cross, _sub, magSq, recC1]

/-- C1: evaluating the code at the collinear facet a=(0,0,0), b=(1,0,0),
c=(2,0,0): the stream does report `Degenerate` for it, but `allfacets` does
NOT exclude it — the second yielded item carries the facet tuple with the
un-normalized zero normal, and a Python 4-tuple is always truthy, so it is
appended.  This contradicts the claim (and the source's own `'skipped
degenerate facet'` message and `allfacets` docstring promising normalized
normals): the code includes the degenerate facet in the returned list. -/
theorem c1_degenerate_not_excluded :
    (readbinary [recC1]).map Prod.fst =
      [FacetStatus.degenerate 1, FacetStatus.degenerate 1] ∧
    allfacets (readbinary [recC1]) =
      [(((0 : ℚ), 0, 0), ((1 : ℚ), 0, 0), ((2 : ℚ), 0, 0), ((0 : ℝ), 0, 0))] ∧
    allfacets (readbinary [recC1]) ≠ [] := by
  have hb : readbinary [recC1] = yieldFacet recC1 1 := by
    simp [readbinary, readbinaryGo]
  have hcr : castR (normalOf recC1) = ((0 : ℝ), 0, 0) := by
    norm_num [castR, normalOf, _cross, _sub, recC1]
  rw [hb, yieldFacet_deg recC1 1 recC1_deg, hcr]
  refine ⟨rfl, ?_, ?_⟩
  · simp [allfacets, recC1]
  · simp [allfacets]

/-! ## Claim C3 -/

/-- C3: per-record emission shape of the binary stream.  For a record `r` at
encounter position `l1.length + 1`: the drained stream splits around `r`'s
items; when normalization fails (degenerate) exactly two items are emitted in
sequence — first the degenerate marker with facet payload `None`, then the
regular item with the best-effort facet (raw cross product as normal) — and
when it succeeds exactly one item is emitted; draining the byte-level
generator over any decodable record list never raises (`false` crash flag),
in particular not on degenerate facets. -/
theorem c3_stream_emission (l1 l2 : List Rec3) (r : Rec3)
    (its : List (List Byte)) (recs : List Rec3) (hdec : mapDecode its = some recs) :
    (readbinary (l1 ++ r :: l2) =
      readbinary l1 ++ yieldFacet r (l1.length + 1) ++ readbinaryGo l2 (l1.length + 1)) ∧
    (magnitude (normalOf r) = 0 →
      yieldFacet r (l1.length + 1) =
        [(FacetStatus.degenerate (l1.length + 1), none),
         (FacetStatus.degenerate (l1.length + 1),
          some (r.1, r.2.1, r.2.2, castR (normalOf r)))]) ∧
    (magnitude (normalOf r) ≠ 0 → ∃ n,
      yieldFacet r (l1.length + 1) =
        [(FacetStatus.ok (l1.length + 1), some (r.1, r.2.1, r.2.2, n))]) ∧
    (readbinaryBytes its).2 = false := by
  refine ⟨?_, yieldFacet_deg r (l1.length + 1), ?_, ?_⟩
  · rw [readbinary, readbinary, readbinaryGo_append l1 (r :: l2) 0]
    simp only [readbinaryGo, Nat.zero_add, List.append_assoc]
  · intro h
    exact ⟨_, yieldFacet_ok r (l1.length + 1) h⟩
  · rw [readbinaryBytes, readbinaryBytesGo_eq its recs 0 hdec]

/-- The all-origin record (every vertex at (0,0,0)): degenerate. -/
def recC3 : Rec3 := (((0 : ℚ), 0, 0), ((0 : ℚ), 0, 0), ((0 : ℚ), 0, 0))

theorem recC3_deg : magnitude (normalOf recC3) = 0 := by
  rw [magnitude_eq_zero_iff]
  norm_num [normalOf, _cross, _sub, magSq, recC3]

/-- C3 witness: the emission shape instantiated at the degenerate all-origin
record in the empty context. -/
theorem c3_stream_emission_witness :
    mapDecode ([] : List (List Byte)) = some ([] : List Rec3) ∧
    magnitude (normalOf recC3) = 0 ∧
    yieldFacet recC3 1 =
      [(FacetStatus.degenerate 1, none),
       (FacetStatus.degenerate 1, some (recC3.1, recC3.2.1, recC3.2.2, castR (normalOf recC3)))] :=
  ⟨rfl, recC3_deg,
    (c3_stream_emission [] [] recC3 [] [] rfl).2.1 recC3_deg⟩

/-! ## Claim C4 -/

/-- The record decoded from 50 zero bytes. -/
def zeroRec : Rec3 := (((0 : ℚ), 0, 0), ((0 : ℚ), 0, 0), ((0 : ℚ), 0, 0))

theorem zeroRec_deg : magnitude (normalOf zeroRec) = 0 := by
  rw [magnitude_eq_zero_iff]
  norm_num [normalOf, _cross, _sub, magSq, zeroRec]

theorem mapDecode_zeros : mapDecode [List.replicate 50 0] = some [zeroRec] := by
  simp only [mapDecode, recordDecode_zeros, zeroRec]

/-- C4 counterexample: `d134` is a well-formed binary file (declared count 1,
exactly one 50-byte record), yet draining the stream produces 2 items, not 1:
a degenerate record double-emits, so the item count does not equal the
declared/record count. -/
theorem c4_counterexample :
    fromstl d134 = Except.ok (unknownTok, 1, Reader.binary [List.replicate 50 0]) ∧
    (readbinaryBytes [List.replicate 50 0]).1.length = 2 ∧
    (1 : Nat) ≠ 2 := by
  refine ⟨by decide, ?_, by decide⟩
  rw [readbinaryBytes, readbinaryBytesGo_eq _ [zeroRec] 0 mapDecode_zeros]
  simp [readbinaryGo_length, degCount, zeroRec_deg]

/-- C4 (amended): for every binary input accepted by `fromstl` whose
post-header size is a multiple of 50 and whose records all decode, the
declared count equals the number of 50-byte records, and draining the stream
produces one item per record plus one extra item per degenerate record,
without raising. -/
theorem c4_amended (data name : List Byte) (nf : Nat) (its : List (List Byte))
    (recs : List Rec3)
    (hok : fromstl data = Except.ok (name, nf, Reader.binary its))
    (hdvd : 50 ∣ (data.length - 84))
    (hdec : mapDecode its = some recs) :
    nf = its.length ∧ recs.length = its.length ∧
    (readbinaryBytes its).1.length = its.length + degCount recs ∧
    (readbinaryBytes its).2 = false := by
  by_cases hb : hasVertexFrom120 data = false
  · by_cases hlen : data.length < 84
    · exfalso
      rw [fromstl_short_struct data hb hlen] at hok
      cases hok
    · have he := fromstl_binary_eval data hb (by omega)
      rw [he] at hok
      by_cases hm : u32LE (data.drop 80) ≠ (data.length - 84) / 50
      · rw [if_pos hm] at hok
        cases hok
      · rw [if_neg hm] at hok
        have h3 := Except.ok.inj hok
        have hnf : u32LE (data.drop 80) = nf := congrArg (fun p => p.2.1) h3
        have hits : chunk50 (data.drop 84) = its :=
          Reader.binary.inj (congrArg (fun p => p.2.2) h3)
        have hlen50 : its.length = (data.length - 84) / 50 := by
          rw [← hits, chunk50_length]
          simp only [List.length_drop]
          obtain ⟨k, hk⟩ := hdvd
          omega
        refine ⟨?_, mapDecode_length its recs hdec, ?_, ?_⟩
        · rw [← hnf, not_not.mp hm, hlen50]
        · rw [readbinaryBytes, readbinaryBytesGo_eq its recs 0 hdec]
          simp only [readbinaryGo_length]
          rw [mapDecode_length its recs hdec]
        · rw [readbinaryBytes, readbinaryBytesGo_eq its recs 0 hdec]
  · exfalso
    have hb' : hasVertexFrom120 data = true := by
      cases hv : hasVertexFrom120 data
      · exact absurd hv hb
      · rfl
    cases h1 : pyIndex ((pySplit data).map pyStripWs) solidTok with
    | none =>
      rw [fromstl_text_none data hb' (Or.inl h1)] at hok
      cases hok
    | some si =>
      cases h2 : pyIndex ((pySplit data).map pyStripWs) facetTok with
      | none =>
        rw [fromstl_text_none data hb' (Or.inr h2)] at hok
        cases hok
      | some en =>
        rw [fromstl_text_some data si en hb' h1 h2] at hok
        have := congrArg (fun p => p.2.2) (Except.ok.inj hok)
        cases this

/-- C4 witness: the amended count law instantiated at `d134` (one degenerate
zero record): declared count 1 = 1 record, and the drained stream has
1 + 1 = 2 items with no raise. -/
theorem c4_amended_witness :
    fromstl d134 = Except.ok (unknownTok, 1, Reader.binary [List.replicate 50 0]) ∧
    50 ∣ (d134.length - 84) ∧
    mapDecode [List.replicate 50 0] = some [zeroRec] ∧
    (1 = ([List.replicate 50 (0 : Byte)] : List (List Byte)).length ∧
     ([zeroRec] : List Rec3).length = ([List.replicate 50 (0 : Byte)] : List (List Byte)).length ∧
     (readbinaryBytes [List.replicate 50 0]).1.length =
       ([List.replicate 50 (0 : Byte)] : List (List Byte)).length + degCount [zeroRec] ∧
     (readbinaryBytes [List.replicate 50 0]).2 = false) :=
  ⟨by decide, by decide, mapDecode_zeros,
    c4_amended d134 unknownTok 1 [List.replicate 50 0] [zeroRec]
      (by decide) (by decide) mapDecode_zeros⟩

/-! ## Claim C9 -/

/-- A single complete 21-token facet block with nothing after it (no
`endsolid`): after consuming it, the token list is empty. -/
def toks21 : List (List Byte) :=
  [facetTok, strBytes ("normal"), strBytes ("0"), strBytes ("0"), strBytes ("0"),
   strBytes ("outer"), strBytes ("loop"),
   strBytes ("vertex"), strBytes ("0"), strBytes ("0"), strBytes ("0"),
   strBytes ("vertex"), strBytes ("0"), strBytes ("0"), strBytes ("0"),
   strBytes ("vertex"), strBytes ("0"), strBytes ("0"), strBytes ("0"),
   strBytes ("endloop"), strBytes ("endfacet")]

/-- C9 counterexample: on a token list holding exactly one 21-token facet
block, the text stream consumes the block, leaving an empty list, and the
loop-head access `items[0]` is then out of bounds: the generator raises
IndexError (crash flag `true`) instead of terminating normally, refuting the
claim that the cursor access at the loop head is always in bounds. -/
theorem c9_counterexample : (readtext toks21).2 = true := by decide

/-- C9 (amended): the text stream terminates normally (no further items,
no raise) when the current token exists and differs from `"facet"`; but when
the token list has been fully consumed, the loop-head access `items[0]` is out
of bounds and the stream raises IndexError instead. -/
theorem c9_amended (toks : List (List Byte)) :
    (toks = [] → readtext toks = ([], true)) ∧
    (∀ t rest, toks = t :: rest → t ≠ facetTok → readtext toks = ([], false)) := by
  constructor
  · intro h
    subst h
    rfl
  · intro t rest h hne
    subst h
    unfold readtext
    simp only [List.length_cons]
    rw [readtextF]
    rw [if_neg hne]

def endsolidTok : List Byte := strBytes ("endsolid")

/-- C9 witness: the amended termination law at the token `endsolid` (normal
termination) and at the empty token list (raise). -/
theorem c9_amended_witness :
    endsolidTok ≠ facetTok ∧
    readtext [endsolidTok] = ([], false) ∧
    readtext ([] : List (List Byte)) = ([], true) :=
  ⟨by decide,
    (c9_amended [endsolidTok]).2 endsolidTok [] rfl (by decide),
    (c9_amended ([] : List (List Byte))).1 rfl⟩
